import Mathlib

/-!
Verification of the SQLTableEditing table-synchronization engine.

Shallow embedding of `src/sqlworker.cpp` (class `SQLWorker`).  The SQLite
storage engine is modelled as an association list from table names to table
contents; all cell values are text, matching the engine layer, which binds and
reads every cell as a string.  A transaction is modelled by its observable
contract: statements executed inside it act on a working copy of the database,
`rollback` restores the database as it was when the transaction began, and
`commit` installs the working copy.  Engine-side failures that do not depend on
the database content (a transaction that cannot start, a spurious exec error, a
constraint violation on the insert of a particular row, a failing commit) are
injected through an explicit environment of failure flags.  Each operation also
returns the list of statements it handed to the engine, so that claims about
"no statement was executed" or "resolution happens once, not per row" are
directly statable.
-/

namespace SQLTableEditing

/-- A stored table: its schema column names and its rows (all cells text). -/
structure Table where
  cols : List String
  rows : List (List String)
deriving DecidableEq, Repr

/-- The open database file: an ordered association of table name to content.
The list order is the `sqlite_master` enumeration order. -/
abbrev DB := List (String × Table)

/-- Look up a table by name (first match, as table names are unique in SQLite). -/
def dbLookup : DB → String → Option Table
  | [], _ => none
  | (n, tab) :: rest, t => if n = t then some tab else dbLookup rest t

/-- Replace the content stored under a table name, keeping catalog order. -/
def dbUpdate (db : DB) (t : String) (tab : Table) : DB :=
  db.map fun p => if p.1 = t then (p.1, tab) else p

/-- The in-memory grid, modelling the `QTableWidget` contents that
`SQLWorker` reads: a per-column optional header item
(`horizontalHeaderItem` may be null for a column) and rows of optional
cell items (`item(row, col)` may be null). -/
structure Grid where
  headers : List (Option String)
  rows : List (List (Option String))
deriving DecidableEq, Repr

/-- `QTableWidget::columnCount`. -/
def Grid.columnCount (g : Grid) : Nat := g.headers.length

/-- `QTableWidget::rowCount`. -/
def Grid.rowCount (g : Grid) : Nat := g.rows.length

/-- The text of a cell as the C++ code reads it: a missing item is read
as the empty string (`_cellItem ? _cellItem->text() : ""`). -/
def Grid.cellText (g : Grid) (r c : Nat) : String :=
  ((g.rows.getD r []).getD c none).getD ""

/-- The `SQLWorker` state: its member variables, plus the content of the
database file visible through the open connection. -/
structure Worker where
  CurrentFilePath : String
  AvailableTableNames : List String
  FileLoaded : Bool
  dbOpen : Bool
  db : DB
deriving DecidableEq, Repr

/-- Statements handed to the storage engine during a commit. -/
inductive Stmt where
  | beginTx : Stmt
  | deleteAll (table : String) : Stmt
  | pragmaTableInfo (table : String) : Stmt
  | prepareInsert (table : String) (cols : List String) : Stmt
  | execInsert (table : String) (cols : List String) (vals : List String) : Stmt
  | commitTx : Stmt
  | rollbackTx : Stmt
deriving DecidableEq, Repr

/-- Failure flags for the engine calls made by `UpdateCompleteTable`:
whether `transaction()` succeeds, whether the (valid) DELETE exec succeeds,
whether the initial prepare of a valid INSERT succeeds, whether the final
`commit()` succeeds, and per row index whether the re-prepare
(`sqlworker.cpp:324`) and the insert exec (`sqlworker.cpp:338`) succeed. -/
structure Env where
  txOk : Bool
  delOk : Bool
  prepOk : Bool
  commitOk : Bool
  reprepOk : Nat → Bool
  insOk : Nat → Bool

/-- `SQLWorker::GetTableColumns` (sqlworker.cpp:419-440): `PRAGMA
table_info` returns the schema columns of an existing table and no rows —
hence an empty list — for an unknown one. -/
def GetTableColumns (db : DB) (tableName : String) : List String :=
  match dbLookup db tableName with
  | some tab => tab.cols
  | none => []

/-- The column-name resolution loop of `SQLWorker::UpdateCompleteTable`
(sqlworker.cpp:285-300), started at column index `col`: take the grid
header item's text when present; otherwise run `GetTableColumns` (a fresh
PRAGMA statement each time, recorded in the returned trace) and use the
catalog column at the same position; otherwise synthesize
`Column_<col+1>`. -/
def resolveColumnsFrom (db : DB) (tableName : String) :
    Nat → List (Option String) → List String × List Stmt
  | _, [] => ([], [])
  | col, h :: rest =>
    let tail := resolveColumnsFrom db tableName (col + 1) rest
    match h with
    | some text => (text :: tail.1, tail.2)
    | none =>
      let dbCols := GetTableColumns db tableName
      if col < dbCols.length then
        (dbCols.getD col "" :: tail.1, Stmt.pragmaTableInfo tableName :: tail.2)
      else
        (("Column_" ++ toString (col + 1)) :: tail.1,
          Stmt.pragmaTableInfo tableName :: tail.2)

/-- The values bound for one grid row (sqlworker.cpp:331-335): one bind
per widget column, a missing cell bound as the empty string. -/
def rowValues (ncols : Nat) (row : List (Option String)) : List String :=
  (List.range ncols).map fun c => (row.getD c none).getD ""

/-- The row stored by SQLite for `INSERT INTO t (insCols) VALUES (...)`:
each schema column takes the value bound for its (first) occurrence in the
insert column list, and NULL — read back as the empty string — when it is
not listed. -/
def storedRow (schemaCols insCols : List String) (vals : List String) : List String :=
  schemaCols.map fun sc =>
    ((((insCols.zip vals).find? fun p => p.1 = sc).map Prod.snd).getD "")

/-- The per-row insert loop of `UpdateCompleteTable` (sqlworker.cpp:321-344),
rows indexed from `r`, with `acc` the rows inserted so far inside the open
transaction.  Each iteration re-prepares the (already validated) insert
statement and executes it with the row's bound values; the first engine
failure stops the loop with `false`.  Returns (success, rows now in the
working table, statements executed by the loop). -/
def insertLoop (env : Env) (tableName : String) (schemaCols insCols : List String)
    (ncols : Nat) :
    List (List (Option String)) → Nat → List (List String) →
      Bool × List (List String) × List Stmt
  | [], _, acc => (true, acc, [])
  | row :: rest, r, acc =>
    if env.reprepOk r then
      let vals := rowValues ncols row
      if env.insOk r then
        let next := insertLoop env tableName schemaCols insCols ncols rest (r + 1)
          (acc ++ [storedRow schemaCols insCols vals])
        (next.1, next.2.1,
          Stmt.prepareInsert tableName insCols ::
            Stmt.execInsert tableName insCols vals :: next.2.2)
      else
        (false, acc,
          [Stmt.prepareInsert tableName insCols,
            Stmt.execInsert tableName insCols vals])
    else
      (false, acc, [Stmt.prepareInsert tableName insCols])

/-- Result of a commit call: the returned bool, the database content after
the call, and the statements handed to the engine. -/
structure UCTResult where
  ok : Bool
  db : DB
  trace : List Stmt
deriving Repr

/-- `SQLWorker::UpdateCompleteTable` (sqlworker.cpp:254-355).  Control flow
follows the source line by line: parameter validation, open-connection
check, `transaction()`, `DELETE FROM t` (which the engine rejects when `t`
names no table), the column-name resolution loop, `prepare` of the INSERT
(which the engine rejects when the column list is empty or contains a name
that is not a schema column of `t`), the per-row insert loop, and
`commit()`.  Every failure after the transaction started calls
`rollback()`, which restores the database as it was before the call. -/
def UpdateCompleteTable (w : Worker) (env : Env) (tableName : String)
    (tableWidget : Option Grid) : UCTResult :=
  match tableWidget with
  | none => ⟨false, w.db, []⟩
  | some g =>
    if ¬ w.FileLoaded ∨ tableName = "" then ⟨false, w.db, []⟩
    else if ¬ w.dbOpen then ⟨false, w.db, []⟩
    else if ¬ env.txOk then ⟨false, w.db, []⟩
    else
      match dbLookup w.db tableName with
      | none => ⟨false, w.db, [Stmt.beginTx, Stmt.deleteAll tableName, Stmt.rollbackTx]⟩
      | some tab =>
        if ¬ env.delOk then
          ⟨false, w.db, [Stmt.beginTx, Stmt.deleteAll tableName, Stmt.rollbackTx]⟩
        else
          let db1 := dbUpdate w.db tableName { tab with rows := [] }
          let res := resolveColumnsFrom db1 tableName 0 g.headers
          let insCols := res.1
          let preTr := [Stmt.beginTx, Stmt.deleteAll tableName] ++ res.2
          if ¬ (env.prepOk ∧ insCols ≠ [] ∧
              insCols.all (fun c => tab.cols.contains c)) then
            ⟨false, w.db,
              preTr ++ [Stmt.prepareInsert tableName insCols, Stmt.rollbackTx]⟩
          else
            let lres := insertLoop env tableName tab.cols insCols g.columnCount
              g.rows 0 []
            let trL := preTr ++ [Stmt.prepareInsert tableName insCols] ++ lres.2.2
            if ¬ lres.1 then ⟨false, w.db, trL ++ [Stmt.rollbackTx]⟩
            else if ¬ env.commitOk then ⟨false, w.db, trL ++ [Stmt.rollbackTx]⟩
            else
              ⟨true, dbUpdate w.db tableName { tab with rows := lres.2.1 },
                trL ++ [Stmt.commitTx]⟩

/-- `SQLWorker::LoadTableData` (sqlworker.cpp:108-166).  `widgetGiven`
models the `tableWidget` pointer being non-null.  Returns the grid the
widget is populated with, or `none` on any of the source's failure paths:
preconditions, closed connection, empty column list, or a failing SELECT
(`SELECT * FROM t` fails exactly when `t` names no table, which is
subsumed by the empty-column check). -/
def LoadTableData (w : Worker) (tableName : String) (widgetGiven : Bool) :
    Option Grid :=
  if ¬ w.FileLoaded ∨ tableName = "" ∨ ¬ widgetGiven then none
  else if ¬ w.dbOpen then none
  else
    let cols := GetTableColumns w.db tableName
    if cols.isEmpty then none
    else
      match dbLookup w.db tableName with
      | none => none
      | some tab =>
        some
          { headers := cols.map some,
            rows := tab.rows.map fun row =>
              (List.range cols.length).map fun c => some (row.getD c "") }

/-- Failure flags and file content for `SQLWorker::LoadSQLFile`: whether
`QSqlDatabase::open()` succeeds, whether the validation query succeeds,
whether the `sqlite_master` metadata query of `ParseSQLStructure`
succeeds, and the content of the file being opened. -/
structure LoadEnv where
  openOk : Bool
  validOk : Bool
  metaOk : Bool
  fileDb : DB

/-- The SQL pattern `sqlite_%` of `GET_TABLES_QUERY` (sqlworker.cpp:6) as
a predicate.  SQLite `LIKE` is ASCII case-insensitive, `_` matches
exactly one arbitrary character and `%` any (possibly empty) suffix, so a
name matches iff its first six characters case-insensitively spell
"sqlite" and at least one further character follows. -/
def likeSqlitePattern (n : String) : Bool :=
  n.toLower.startsWith "sqlite" && decide (7 ≤ n.length)

/-- `SQLWorker::ParseSQLStructure` (sqlworker.cpp:392-414): on a metadata
query error the table list stays empty; otherwise the names come from
`SELECT name FROM sqlite_master WHERE type='table' AND name NOT LIKE
'sqlite_%'` (the pattern's `_` being a single-character wildcard) and the
loop additionally skips empty names. -/
def ParseSQLStructure (db : DB) (metaOk : Bool) : List String :=
  if ¬ metaOk then []
  else
    ((db.map Prod.fst).filter fun n =>
        !(likeSqlitePattern n)).filter fun n => !n.isEmpty

/-- `SQLWorker::LoadSQLFile` (sqlworker.cpp:47-92).  An empty path fails
before anything is touched.  Otherwise the old connection is closed and
removed first; if the new open fails the call fails with the connection
closed; if the validation query fails the freshly opened connection is
closed again and the call fails.  Only on full success are
`CurrentFilePath`, the parsed table list and `FileLoaded` updated. -/
def LoadSQLFile (w : Worker) (env : LoadEnv) (filePath : String) :
    Bool × Worker :=
  if filePath.isEmpty then (false, w)
  else
    let w1 := { w with dbOpen := false }
    if ¬ env.openOk then (false, w1)
    else if ¬ env.validOk then (false, { w1 with db := env.fileDb })
    else
      (true,
        { CurrentFilePath := filePath,
          AvailableTableNames := ParseSQLStructure env.fileDb env.metaOk,
          FileLoaded := true, dbOpen := true, db := env.fileDb })

/-- `SQLWorker::GetTableNames` (sqlworker.cpp:97-100). -/
def GetTableNames (w : Worker) : List String := w.AvailableTableNames

/-- `SQLWorker::GetCurrentFilePath` (sqlworker.cpp:376-379). -/
def GetCurrentFilePath (w : Worker) : String := w.CurrentFilePath

/-- `SQLWorker::IsFileLoaded` (sqlworker.cpp:384-387). -/
def IsFileLoaded (w : Worker) : Bool := w.FileLoaded && w.dbOpen

/-- The spec's description of per-position column-name resolution: the
grid's own header label if present; otherwise the catalog's column at the
same position; otherwise the synthesized name `Column_<col+1>`. -/
def resolveSpec (dbCols : List String) (col : Nat) (h : Option String) : String :=
  match h with
  | some text => text
  | none =>
    if col < dbCols.length then dbCols.getD col ""
    else "Column_" ++ toString (col + 1)

/-- Recognizer for the PRAGMA statements emitted by column resolution. -/
def Stmt.isPragma : Stmt → Bool
  | Stmt.pragmaTableInfo _ => true
  | _ => false

/-! ## Concrete states used by counterexamples and witnesses -/

/-- Example stored table `users(id, name)` with two rows, as in the spec's
walk-through scenario. -/
def tabUsers : Table := ⟨["id", "name"], [["1", "Ann"], ["2", "Bo"]]⟩

/-- Worker state right after successfully loading a file containing `users`. -/
def wUsers : Worker := ⟨"/tmp/example.sqlite", ["users"], true, true, [("users", tabUsers)]⟩

/-- Engine environment injecting no failures. -/
def envAll : Env := ⟨true, true, true, true, fun _ => true, fun _ => true⟩

/-- The grid produced by loading `users`. -/
def gUsers : Grid :=
  ⟨[some "id", some "name"], [[some "1", some "Ann"], [some "2", some "Bo"]]⟩

/-- Two-column one-row table `t(a, b)`. -/
def tabAB : Table := ⟨["a", "b"], [["x", "y"]]⟩

/-- Worker state with `t(a, b)` loaded. -/
def wAB : Worker := ⟨"/tmp/ab.sqlite", ["t"], true, true, [("t", tabAB)]⟩

/-- A one-column grid whose single header names only the first of the two
schema columns of `tabAB`. -/
def gNarrow : Grid := ⟨[some "a"], [[some "v"]]⟩

/-- A table with columns but no rows. -/
def tabNoRows : Table := ⟨["id", "name"], []⟩

/-- Worker state with the zero-row table loaded. -/
def wNoRows : Worker := ⟨"/tmp/empty.sqlite", ["empty"], true, true, [("empty", tabNoRows)]⟩

/-- Zero-row grid carrying the `users` schema headers. -/
def gEmptied : Grid := ⟨[some "id", some "name"], []⟩

/-- Mixed-header grid: column 0 has a header item, columns 1 and 2 do not. -/
def gMixed : Grid := ⟨[some "id", none, none], [[some "7", none, some "z"]]⟩

/-- Load environment with no failures whose file holds a user table, an
internal `sqlite_` table, and a table named `sqlitedata`, which the
query's `sqlite_%` pattern also excludes because `_` matches the `d`. -/
def lenvTables : LoadEnv :=
  ⟨true, true, true,
    [("users", tabUsers), ("sqlite_sequence", ⟨["name", "seq"], []⟩),
      ("sqlitedata", ⟨["k"], []⟩)]⟩

/-- Load environment in which opening the new file fails. -/
def lenvOpenFail : LoadEnv := ⟨false, true, true, []⟩

/-- Worker state at startup, before any file was loaded. -/
def wUnloaded : Worker := ⟨"", [], false, false, []⟩

/-! ## Lemmas about the database model -/

theorem dbLookup_dbUpdate_self {db : DB} {t : String} {tab : Table} (tab' : Table)
    (h : dbLookup db t = some tab) : dbLookup (dbUpdate db t tab') t = some tab' := by
  induction db with
  | nil => simp [dbLookup] at h
  | cons p rest ih =>
    obtain ⟨n, tb⟩ := p
    by_cases hn : n = t
    · subst hn
      show dbLookup ((if n = n then (n, tab') else (n, tb)) :: dbUpdate rest n tab') n =
        some tab'
      rw [if_pos rfl]
      simp [dbLookup]
    · show dbLookup ((if n = t then (n, tab') else (n, tb)) :: dbUpdate rest t tab') t =
        some tab'
      rw [if_neg hn]
      have h' : dbLookup rest t = some tab := by
        simpa [dbLookup, hn] using h
      simpa [dbLookup, hn] using ih h'

theorem GetTableColumns_dbUpdate {db : DB} {t : String} {tab : Table} (tab' : Table)
    (h : dbLookup db t = some tab) :
    GetTableColumns (dbUpdate db t tab') t = tab'.cols := by
  unfold GetTableColumns
  rw [dbLookup_dbUpdate_self tab' h]

/-- Reading every position of a list back with a default reproduces the list. -/
theorem map_getD_range {α : Type} (l : List α) (d : α) :
    (List.range l.length).map (fun i => l.getD i d) = l := by
  apply List.ext_getElem?
  intro n
  rw [List.getElem?_map]
  by_cases hn : n < l.length
  · simp [List.getElem?_range, hn, List.getD_eq_getElem?_getD, List.getElem?_eq_getElem hn]
  · have hle : l.length ≤ n := le_of_not_lt hn
    rw [List.getElem?_eq_none (by simpa using hle), List.getElem?_eq_none hle]
    rfl

theorem rowValues_length (ncols : Nat) (row : List (Option String)) :
    (rowValues ncols row).length = ncols := by
  simp [rowValues]

theorem getD_map_lt {α β : Type} (f : α → β) (l : List α) (r : Nat)
    (hr : r < l.length) (d : β) (d' : α) :
    (l.map f).getD r d = f (l.getD r d') := by
  rw [List.getD_eq_getElem?_getD, List.getElem?_map, List.getElem?_eq_getElem hr,
    List.getD_eq_getElem?_getD, List.getElem?_eq_getElem hr]
  rfl

theorem rowValues_getD (n : Nat) (row : List (Option String)) (c : Nat) (hc : c < n) :
    (rowValues n row).getD c "" = (row.getD c none).getD "" := by
  unfold rowValues
  rw [List.getD_eq_getElem?_getD, List.getElem?_map]
  simp [List.getElem?_range, hc]

theorem range_map_some_getD (n : Nat) (row : List String) (c : Nat) (hc : c < n) :
    (((List.range n).map fun i => some (row.getD i "")).getD c none) =
      some (row.getD c "") := by
  rw [List.getD_eq_getElem?_getD, List.getElem?_map]
  simp [List.getElem?_range, hc]

theorem string_isEmpty_false_iff (s : String) : s.isEmpty = false ↔ ¬ s = "" := by
  rw [Bool.eq_false_iff]
  exact not_congr (String.isEmpty_iff s)

/-- Binding back the cells of a row that was rendered column by column
reproduces the row. -/
theorem rowValues_render (row : List String) :
    rowValues row.length ((List.range row.length).map fun c => some (row.getD c "")) =
      row := by
  unfold rowValues
  have hmap : ∀ c : Nat, c < row.length →
      ((((List.range row.length).map fun c => some (row.getD c "")).getD c none).getD "")
        = row.getD c "" := by
    intro c hc
    rw [List.getD_eq_getElem?_getD, List.getElem?_map]
    simp [List.getElem?_range, hc]
  calc (List.range row.length).map
        (fun c => (((List.range row.length).map fun c => some (row.getD c "")).getD c none).getD "")
      = (List.range row.length).map (fun c => row.getD c "") := by
        apply List.map_congr_left
        intro c hc
        exact hmap c (List.mem_range.mp hc)
    _ = row := map_getD_range row ""

/-- Inserting with the full schema column list stores exactly the bound
values. -/
theorem storedRow_self :
    ∀ (cols vals : List String), cols.Nodup → vals.length = cols.length →
      storedRow cols cols vals = vals := by
  intro cols
  induction cols with
  | nil =>
    intro vals _ hlen
    cases vals with
    | nil => rfl
    | cons v vs => simp at hlen
  | cons c cs ih =>
    intro vals hnd hlen
    cases vals with
    | nil => simp at hlen
    | cons v vs =>
      have hnotmem : c ∉ cs := (List.nodup_cons.mp hnd).1
      have hndtail : cs.Nodup := (List.nodup_cons.mp hnd).2
      have hlen' : vs.length = cs.length := by simpa using hlen
      have hhead : (((c, v) :: cs.zip vs).find? fun p => p.1 = c) = some (c, v) :=
        List.find?_cons_of_pos _ (by simp)
      have hfind : ∀ sc ∈ cs,
          (((c, v) :: cs.zip vs).find? fun p => p.1 = sc) =
            ((cs.zip vs).find? fun p => p.1 = sc) := by
        intro sc hsc
        apply List.find?_cons_of_neg
        simp only [decide_eq_true_eq]
        intro hco
        exact hnotmem (hco ▸ hsc)
      show (((((c, v) :: cs.zip vs).find? fun p => p.1 = c).map Prod.snd).getD "") ::
          (cs.map fun sc =>
            (((((c, v) :: cs.zip vs).find? fun p => p.1 = sc).map Prod.snd).getD "")) =
          v :: vs
      rw [hhead]
      have htail : (cs.map fun sc =>
          (((((c, v) :: cs.zip vs).find? fun p => p.1 = sc).map Prod.snd).getD "")) = vs := by
        calc (cs.map fun sc =>
              (((((c, v) :: cs.zip vs).find? fun p => p.1 = sc).map Prod.snd).getD ""))
            = cs.map fun sc =>
              ((((cs.zip vs).find? fun p => p.1 = sc).map Prod.snd).getD "") := by
              apply List.map_congr_left
              intro sc hsc
              rw [hfind sc hsc]
          _ = vs := ih vs hndtail hlen'
      rw [htail]
      rfl

/-! ## Lemmas about column-name resolution -/

/-- When every column has a grid header item, resolution returns exactly
the header texts and runs no catalog query. -/
theorem resolveColumnsFrom_map_some (db : DB) (t : String) :
    ∀ (xs : List String) (i : Nat),
      resolveColumnsFrom db t i (xs.map some) = (xs, []) := by
  intro xs
  induction xs with
  | nil => intro i; rfl
  | cons x rest ih =>
    intro i
    simp only [List.map_cons, resolveColumnsFrom, ih (i + 1)]

theorem resolveColumnsFrom_fst_length (db : DB) (t : String) :
    ∀ (hs : List (Option String)) (i : Nat),
      (resolveColumnsFrom db t i hs).1.length = hs.length := by
  intro hs
  induction hs with
  | nil => intro i; rfl
  | cons h rest ih =>
    intro i
    cases h with
    | some s => simp [resolveColumnsFrom, ih (i + 1)]
    | none =>
      simp only [resolveColumnsFrom]
      split <;> simp [ih (i + 1)]

/-- Per-position characterization of the code's resolution loop: position
`n` (absolute column `i + n`) resolves per the spec's three-way fallback. -/
theorem resolveColumnsFrom_fst_getElem (db : DB) (t : String) :
    ∀ (hs : List (Option String)) (i n : Nat), n < hs.length →
      (resolveColumnsFrom db t i hs).1[n]? =
        some (resolveSpec (GetTableColumns db t) (i + n) (hs.getD n none)) := by
  intro hs
  induction hs with
  | nil => intro i n hn; simp at hn
  | cons h rest ih =>
    intro i n hn
    cases n with
    | zero =>
      cases h with
      | some s => simp [resolveColumnsFrom, resolveSpec]
      | none =>
        simp only [resolveColumnsFrom, resolveSpec]
        split
        · simp_all
        · next hge =>
          simp only [List.getElem?_cons_zero, Nat.add_zero, List.getD_cons_zero]
          rw [if_neg hge]
    | succ m =>
      have hm : m < rest.length := by simpa using hn
      have hstep := ih (i + 1) m hm
      have harith : i + 1 + m = i + (m + 1) := by omega
      cases h with
      | some s =>
        show (s :: (resolveColumnsFrom db t (i + 1) rest).1)[m + 1]? = _
        rw [List.getElem?_cons_succ, hstep, harith]
        rfl
      | none =>
        simp only [resolveColumnsFrom]
        split
        · show ((GetTableColumns db t).getD i "" ::
              (resolveColumnsFrom db t (i + 1) rest).1)[m + 1]? = _
          rw [List.getElem?_cons_succ, hstep, harith]
          rfl
        · show (("Column_" ++ toString (i + 1)) ::
              (resolveColumnsFrom db t (i + 1) rest).1)[m + 1]? = _
          rw [List.getElem?_cons_succ, hstep, harith]
          rfl

/-- Resolution touches the engine only through `PRAGMA table_info`. -/
theorem resolveColumnsFrom_snd_mem (db : DB) (t : String) :
    ∀ (hs : List (Option String)) (i : Nat) (s : Stmt),
      s ∈ (resolveColumnsFrom db t i hs).2 → s = Stmt.pragmaTableInfo t := by
  intro hs
  induction hs with
  | nil => intro i s hmem; simp [resolveColumnsFrom] at hmem
  | cons h rest ih =>
    intro i s hmem
    cases h with
    | some sh =>
      exact ih (i + 1) s (by simpa [resolveColumnsFrom] using hmem)
    | none =>
      simp only [resolveColumnsFrom, apply_ite Prod.snd, ite_self] at hmem
      rcases List.mem_cons.mp hmem with hh | hh
      · exact hh
      · exact ih (i + 1) s hh

/-- One catalog query per headerless column: the number of PRAGMA
statements resolution emits equals the number of columns with no grid
header item, independently of the number of grid rows. -/
theorem resolveColumnsFrom_snd_length (db : DB) (t : String) :
    ∀ (hs : List (Option String)) (i : Nat),
      (resolveColumnsFrom db t i hs).2.length = hs.countP Option.isNone := by
  intro hs
  induction hs with
  | nil => intro i; rfl
  | cons h rest ih =>
    intro i
    cases h with
    | some s => simp [resolveColumnsFrom, ih (i + 1), List.countP_cons, Option.isNone]
    | none =>
      simp only [resolveColumnsFrom]
      split <;> simp [ih (i + 1), List.countP_cons, Option.isNone]

/-- Resolution consults the database only through `GetTableColumns`. -/
theorem resolveColumnsFrom_congr {db db' : DB} {t : String}
    (h : GetTableColumns db t = GetTableColumns db' t) :
    ∀ (hs : List (Option String)) (i : Nat),
      resolveColumnsFrom db t i hs = resolveColumnsFrom db' t i hs := by
  intro hs
  induction hs with
  | nil => intro i; rfl
  | cons hd rest ih =>
    intro i
    cases hd with
    | some s => simp [resolveColumnsFrom, ih (i + 1)]
    | none => simp [resolveColumnsFrom, ih (i + 1), h]

/-! ## Lemmas about the per-row insert loop -/

/-- When no engine failure is injected, the loop succeeds and appends the
stored form of every grid row, in grid order. -/
theorem insertLoop_success {env : Env} (t : String) (sc ic : List String) (n : Nat)
    (h1 : ∀ r, env.reprepOk r = true) (h2 : ∀ r, env.insOk r = true) :
    ∀ (rows : List (List (Option String))) (r : Nat) (acc : List (List String)),
      (insertLoop env t sc ic n rows r acc).1 = true ∧
        (insertLoop env t sc ic n rows r acc).2.1 =
          acc ++ rows.map (fun row => storedRow sc ic (rowValues n row)) := by
  intro rows
  induction rows with
  | nil => intro r acc; simp [insertLoop]
  | cons row rest ih =>
    intro r acc
    have hstep := ih (r + 1) (acc ++ [storedRow sc ic (rowValues n row)])
    simp only [insertLoop, h1 r, h2 r, if_true]
    simp only [List.map_cons]
    refine ⟨hstep.1, ?_⟩
    rw [hstep.2]
    simp

/-- If the loop reports success, every row was inserted. -/
theorem insertLoop_true_rows {env : Env} {t : String} {sc ic : List String} {n : Nat} :
    ∀ {rows : List (List (Option String))} {r : Nat} {acc : List (List String)},
      (insertLoop env t sc ic n rows r acc).1 = true →
        (insertLoop env t sc ic n rows r acc).2.1 =
          acc ++ rows.map (fun row => storedRow sc ic (rowValues n row)) := by
  intro rows
  induction rows with
  | nil => intro r acc _; simp [insertLoop]
  | cons row rest ih =>
    intro r acc hok
    by_cases hp : env.reprepOk r = true
    · by_cases hi : env.insOk r = true
      · simp only [insertLoop, hp, hi, if_true] at hok ⊢
        simp only [List.map_cons]
        rw [ih hok]
        simp
      · simp only [insertLoop, hp, if_true] at hok
        rw [if_neg hi] at hok
        simp at hok
    · simp only [insertLoop] at hok
      rw [if_neg hp] at hok
      simp at hok

/-- Every statement the loop hands to the engine is a re-prepare or an
exec of the one insert statement built before the loop. -/
theorem insertLoop_trace_mem {env : Env} {t : String} {sc ic : List String} {n : Nat} :
    ∀ {rows : List (List (Option String))} {r : Nat} {acc : List (List String)} {s : Stmt},
      s ∈ (insertLoop env t sc ic n rows r acc).2.2 →
        s = Stmt.prepareInsert t ic ∨ ∃ v, s = Stmt.execInsert t ic v := by
  intro rows
  induction rows with
  | nil => intro r acc s hmem; simp [insertLoop] at hmem
  | cons row rest ih =>
    intro r acc s hmem
    by_cases hp : env.reprepOk r = true
    · by_cases hi : env.insOk r = true
      · simp only [insertLoop, hp, hi, if_true] at hmem
        rcases List.mem_cons.mp hmem with hh | hh
        · exact Or.inl hh
        · rcases List.mem_cons.mp hh with hh' | hh'
          · exact Or.inr ⟨_, hh'⟩
          · exact ih hh'
      · simp only [insertLoop, hp, if_true] at hmem
        rw [if_neg hi] at hmem
        rcases List.mem_cons.mp hmem with hh | hh
        · exact Or.inl hh
        · rcases List.mem_cons.mp hh with hh' | hh'
          · exact Or.inr ⟨_, hh'⟩
          · simp at hh'
    · simp only [insertLoop] at hmem
      rw [if_neg hp] at hmem
      rcases List.mem_cons.mp hmem with hh | hh
      · exact Or.inl hh
      · simp at hh

/-! ## Branch characterizations of `UpdateCompleteTable` -/

/-- Every failing commit leaves the database exactly as it was: each
failure path of the source either returns before the transaction starts
or calls `rollback()` before returning. -/
theorem uct_db_of_ok_false (w : Worker) (env : Env) (t : String) (gw : Option Grid)
    (h : (UpdateCompleteTable w env t gw).ok = false) :
    (UpdateCompleteTable w env t gw).db = w.db := by
  cases gw with
  | none => rfl
  | some g =>
    revert h
    simp only [UpdateCompleteTable]
    repeat' split
    all_goals intro h
    all_goals simp_all

/-- A successful commit reaches the final branch: the target table exists,
the insert loop succeeded, and the new database stores the loop's rows
under the target table. -/
theorem uct_ok_shape (w : Worker) (env : Env) (t : String) (g : Grid)
    (h : (UpdateCompleteTable w env t (some g)).ok = true) :
    ∃ tab, dbLookup w.db t = some tab ∧
      (insertLoop env t tab.cols
        (resolveColumnsFrom (dbUpdate w.db t { tab with rows := [] }) t 0 g.headers).1
        g.columnCount g.rows 0 []).1 = true ∧
      (UpdateCompleteTable w env t (some g)).db =
        dbUpdate w.db t
          { tab with rows := (insertLoop env t tab.cols
              (resolveColumnsFrom (dbUpdate w.db t { tab with rows := [] }) t 0 g.headers).1
              g.columnCount g.rows 0 []).2.1 } := by
  revert h
  simp only [UpdateCompleteTable]
  repeat' split
  all_goals intro h
  all_goals simp_all

/-- Exact result of a commit in which no engine failure is injected and
the resolved insert column list is valid for the target table. -/
theorem uct_success_eq (w : Worker) (env : Env) (t : String) (g : Grid) (tab : Table)
    (rc : List String) (rtr : List Stmt)
    (hfl : w.FileLoaded = true) (hop : w.dbOpen = true) (ht : ¬ t = "")
    (htx : env.txOk = true) (hdel : env.delOk = true)
    (hlook : dbLookup w.db t = some tab)
    (hres : resolveColumnsFrom (dbUpdate w.db t { tab with rows := [] }) t 0 g.headers =
      (rc, rtr))
    (hprep : env.prepOk = true) (hne : rc ≠ [])
    (hsub : (rc.all fun c => tab.cols.contains c) = true)
    (hloop : (insertLoop env t tab.cols rc g.columnCount g.rows 0 []).1 = true)
    (hcommit : env.commitOk = true) :
    UpdateCompleteTable w env t (some g) =
      ⟨true,
        dbUpdate w.db t
          { tab with rows := (insertLoop env t tab.cols rc g.columnCount g.rows 0 []).2.1 },
        [Stmt.beginTx, Stmt.deleteAll t] ++ rtr ++ [Stmt.prepareInsert t rc] ++
          (insertLoop env t tab.cols rc g.columnCount g.rows 0 []).2.2 ++
          [Stmt.commitTx]⟩ := by
  simp only [UpdateCompleteTable, hlook, hres, hfl, hop, htx, hdel, hprep, hcommit, hloop]
  simp [ht, hne, hsub]
  intro x hx
  have hx' := List.all_eq_true.mp hsub x hx
  simpa using hx'

/-- After the delete step of a commit, the remaining trace consists of the
resolution's PRAGMA statements, the single prepared insert, and a tail of
re-prepares, insert execs and the closing rollback or commit — all built
from the one resolved column list. -/
theorem uct_trace_shape (w : Worker) (env : Env) (t : String) (g : Grid) (tab : Table)
    (rc : List String) (rtr : List Stmt)
    (hfl : w.FileLoaded = true) (hop : w.dbOpen = true) (ht : ¬ t = "")
    (htx : env.txOk = true) (hdel : env.delOk = true)
    (hlook : dbLookup w.db t = some tab)
    (hres : resolveColumnsFrom (dbUpdate w.db t { tab with rows := [] }) t 0 g.headers =
      (rc, rtr)) :
    ∃ tail, (UpdateCompleteTable w env t (some g)).trace =
        [Stmt.beginTx, Stmt.deleteAll t] ++ rtr ++ [Stmt.prepareInsert t rc] ++ tail ∧
      ∀ s ∈ tail, s = Stmt.prepareInsert t rc ∨ (∃ v, s = Stmt.execInsert t rc v) ∨
        s = Stmt.rollbackTx ∨ s = Stmt.commitTx := by
  have hloopmem : ∀ s ∈ (insertLoop env t tab.cols rc g.columnCount g.rows 0 []).2.2,
      s = Stmt.prepareInsert t rc ∨ ∃ v, s = Stmt.execInsert t rc v :=
    fun _ hs => insertLoop_trace_mem hs
  simp only [UpdateCompleteTable, hlook, hres]
  simp [hfl, hop, htx, hdel, ht]
  split
  · exact ⟨[Stmt.rollbackTx], by simp, by
      intro s hs
      simp only [List.mem_singleton] at hs
      exact Or.inr (Or.inr (Or.inl hs))⟩
  · split
    · refine ⟨(insertLoop env t tab.cols rc g.columnCount g.rows 0 []).2.2 ++
        [Stmt.rollbackTx], by simp, ?_⟩
      intro s hs
      rcases List.mem_append.mp hs with hs' | hs'
      · rcases hloopmem s hs' with hh | hh
        · exact Or.inl hh
        · exact Or.inr (Or.inl hh)
      · simp only [List.mem_singleton] at hs'
        exact Or.inr (Or.inr (Or.inl hs'))
    · split
      · refine ⟨(insertLoop env t tab.cols rc g.columnCount g.rows 0 []).2.2 ++
          [Stmt.rollbackTx], by simp, ?_⟩
        intro s hs
        rcases List.mem_append.mp hs with hs' | hs'
        · rcases hloopmem s hs' with hh | hh
          · exact Or.inl hh
          · exact Or.inr (Or.inl hh)
        · simp only [List.mem_singleton] at hs'
          exact Or.inr (Or.inr (Or.inl hs'))
      · refine ⟨(insertLoop env t tab.cols rc g.columnCount g.rows 0 []).2.2 ++
          [Stmt.commitTx], by simp, ?_⟩
        intro s hs
        rcases List.mem_append.mp hs with hs' | hs'
        · rcases hloopmem s hs' with hh | hh
          · exact Or.inl hh
          · exact Or.inr (Or.inl hh)
        · simp only [List.mem_singleton] at hs'
          exact Or.inr (Or.inr (Or.inr hs'))

/-! ## Claims -/

/-- C1: For every call to the commit operation (UpdateCompleteTable /
CommitGrid) that returns failure — transaction cannot start, the
delete-all statement fails, preparing or executing the insert of any row
fails, or the final commit call fails — the stored content after the call
equals the content before the call: no partially inserted rows and no
partial deletion are observable. -/
theorem c1_failed_commit_leaves_db_unchanged (w : Worker) (env : Env) (t : String)
    (gw : Option Grid) (h : (UpdateCompleteTable w env t gw).ok = false) :
    (UpdateCompleteTable w env t gw).db = w.db :=
  uct_db_of_ok_false w env t gw h

/-- Witness for C1: a commit in which the insert of row 1 fails leaves the
`users` table unchanged. -/
theorem c1_witness :
    (UpdateCompleteTable wUsers
      { envAll with insOk := fun r => r ≠ 1 } "users" (some gUsers)).ok = false ∧
    (UpdateCompleteTable wUsers
      { envAll with insOk := fun r => r ≠ 1 } "users" (some gUsers)).db = wUsers.db :=
  ⟨by decide,
    c1_failed_commit_leaves_db_unchanged wUsers
      { envAll with insOk := fun r => r ≠ 1 } "users" (some gUsers) (by decide)⟩

/-- C6: UpdateCompleteTable called with no file loaded, an empty table
name, a null grid, or a closed connection returns false before any
storage interaction: no transaction is started and no statement is
executed, and the database is untouched. -/
theorem c6_precondition_failure (w : Worker) (env : Env) (t : String) (gw : Option Grid)
    (h : w.FileLoaded = false ∨ t = "" ∨ gw = none ∨ w.dbOpen = false) :
    UpdateCompleteTable w env t gw = ⟨false, w.db, []⟩ := by
  cases gw with
  | none => rfl
  | some g =>
    simp only [UpdateCompleteTable]
    rcases h with h | h | h | h
    · rw [if_pos (Or.inl (by simp [h]))]
    · rw [if_pos (Or.inr h)]
    · simp at h
    · by_cases h1 : (¬ w.FileLoaded = true ∨ t = "")
      · rw [if_pos h1]
      · rw [if_neg h1, if_pos (by simp [h])]

/-- Witness for C6: committing before any file is loaded returns false
with an empty statement trace and the (empty) storage untouched. -/
theorem c6_witness :
    UpdateCompleteTable wUnloaded envAll "users" (some gUsers) =
      ⟨false, wUnloaded.db, []⟩ :=
  c6_precondition_failure wUnloaded envAll "users" (some gUsers) (Or.inl rfl)

/-- Counterexample to C3: committing to name "ghost", which is not in the
catalog (`GetTableNames wUsers = ["users"]`), does not fail before storage
interaction: a transaction is started and the name is interpolated into a
DELETE statement handed to the engine, contradicting both the
InvalidRequest classification and "never uses that name in a generated
statement". -/
theorem c3_counterexample :
    GetTableNames wUsers = ["users"] ∧
    (UpdateCompleteTable wUsers envAll "ghost" (some gUsers)).trace =
      [Stmt.beginTx, Stmt.deleteAll "ghost", Stmt.rollbackTx] ∧
    Stmt.deleteAll "ghost" ∈ (UpdateCompleteTable wUsers envAll "ghost" (some gUsers)).trace :=
  ⟨rfl, by decide, by decide⟩

/-- C3 amended: UpdateCompleteTable performs no catalog validation of the
table name.  A commit to a non-empty name that names no table in the
database still returns false and leaves storage unchanged, but only
because the name is interpolated into the DELETE statement, which the
engine rejects inside an already-started transaction that is then rolled
back (DeleteFailed, not InvalidRequest). -/
theorem c3_unknown_table_commit (w : Worker) (env : Env) (t : String) (g : Grid)
    (hfl : w.FileLoaded = true) (hop : w.dbOpen = true) (ht : ¬ t = "")
    (htx : env.txOk = true) (hlook : dbLookup w.db t = none) :
    UpdateCompleteTable w env t (some g) =
      ⟨false, w.db, [Stmt.beginTx, Stmt.deleteAll t, Stmt.rollbackTx]⟩ := by
  simp only [UpdateCompleteTable, hlook]
  simp [hfl, hop, ht, htx]

/-- Witness for the amended C3. -/
theorem c3_amended_witness :
    UpdateCompleteTable wUsers envAll "ghost" (some gEmptied) =
      ⟨false, wUsers.db, [Stmt.beginTx, Stmt.deleteAll "ghost", Stmt.rollbackTx]⟩ :=
  c3_unknown_table_commit wUsers envAll "ghost" gEmptied rfl rfl (by decide) rfl (by decide)

/-- Counterexample to C9: after a successful load, `LoadSQLFile ""`
returns false without tearing the old connection down: `IsFileLoaded`
still reports true, contradicting the claim that every failed reload
leaves `IsFileLoaded` false. -/
theorem c9_counterexample :
    IsFileLoaded wUsers = true ∧
    (LoadSQLFile wUsers lenvOpenFail "").1 = false ∧
    IsFileLoaded (LoadSQLFile wUsers lenvOpenFail "").2 = true :=
  ⟨rfl, rfl, rfl⟩

/-- C9 amended: if `LoadSQLFile` with a NON-EMPTY path fails after a
previous successful load, the old connection has been torn down —
`IsFileLoaded` returns false — while the stale catalog and the previous
file path are retained.  (With an empty path the call fails before
touching the connection, so `IsFileLoaded` stays true.) -/
theorem c9_failed_reload_keeps_stale_catalog (w : Worker) (env : LoadEnv) (p : String)
    (_hprev : IsFileLoaded w = true) (hp : ¬ p = "")
    (hfail : (LoadSQLFile w env p).1 = false) :
    IsFileLoaded (LoadSQLFile w env p).2 = false ∧
    GetTableNames (LoadSQLFile w env p).2 = GetTableNames w ∧
    GetCurrentFilePath (LoadSQLFile w env p).2 = GetCurrentFilePath w := by
  have hp' : p.isEmpty = false := (string_isEmpty_false_iff p).mpr hp
  by_cases ho : env.openOk = true
  · by_cases hv : env.validOk = true
    · exfalso
      simp [LoadSQLFile, hp', ho, hv] at hfail
    · simp [LoadSQLFile, hp', ho, hv, IsFileLoaded, GetTableNames, GetCurrentFilePath]
  · simp [LoadSQLFile, hp', ho, IsFileLoaded, GetTableNames, GetCurrentFilePath]

/-- Witness for the amended C9: reloading with a non-empty path whose open
fails leaves `IsFileLoaded` false and the stale `users` catalog and old
path in place. -/
theorem c9_amended_witness :
    IsFileLoaded (LoadSQLFile wUsers lenvOpenFail "/tmp/other.sqlite").2 = false ∧
    GetTableNames (LoadSQLFile wUsers lenvOpenFail "/tmp/other.sqlite").2 =
      GetTableNames wUsers ∧
    GetCurrentFilePath (LoadSQLFile wUsers lenvOpenFail "/tmp/other.sqlite").2 =
      GetCurrentFilePath wUsers :=
  c9_failed_reload_keeps_stale_catalog wUsers lenvOpenFail "/tmp/other.sqlite"
    rfl (by decide) rfl

/-- C7: after a successful load, the table list contains exactly the
open file's tables whose names do not match the internal `sqlite_%`
name pattern (with `_` a single-character wildcard) and are non-empty,
in the stable metadata order ([Sublist] of the file's table sequence);
if the metadata query errors the list is empty. -/
theorem c7_list_tables (w : Worker) (env : LoadEnv) (p : String)
    (hp : ¬ p = "") (ho : env.openOk = true) (hv : env.validOk = true) :
    (∀ n, n ∈ GetTableNames (LoadSQLFile w env p).2 ↔
      (env.metaOk = true ∧ n ∈ env.fileDb.map Prod.fst ∧
        likeSqlitePattern n = false ∧ ¬ n = "")) ∧
    List.Sublist (GetTableNames (LoadSQLFile w env p).2) (env.fileDb.map Prod.fst) ∧
    (env.metaOk = false → GetTableNames (LoadSQLFile w env p).2 = []) := by
  have hp' : p.isEmpty = false := (string_isEmpty_false_iff p).mpr hp
  have hw : GetTableNames (LoadSQLFile w env p).2 =
      ParseSQLStructure env.fileDb env.metaOk := by
    simp [LoadSQLFile, hp', ho, hv, GetTableNames]
  rw [hw]
  by_cases hm : env.metaOk = true
  · refine ⟨?_, ?_, by simp [hm]⟩
    · intro n
      simp only [ParseSQLStructure]
      rw [if_neg (by simp [hm])]
      simp only [List.mem_filter, Bool.not_eq_true']
      constructor
      · rintro ⟨⟨hmem, hpat⟩, hemp⟩
        exact ⟨hm, hmem, hpat, (string_isEmpty_false_iff n).mp hemp⟩
      · rintro ⟨-, hmem, hpat, hemp⟩
        exact ⟨⟨hmem, hpat⟩, (string_isEmpty_false_iff n).mpr hemp⟩
    · simp only [ParseSQLStructure]
      rw [if_neg (by simp [hm])]
      exact (List.filter_sublist _).trans (List.filter_sublist _)
  · refine ⟨?_, ?_, fun _ => by simp [ParseSQLStructure, hm]⟩
    · intro n
      simp [ParseSQLStructure, hm]
    · simp [ParseSQLStructure, hm]

/-- Witness for C7, on a file holding `users`, the internal
`sqlite_sequence` table, and `sqlitedata`, which the pattern's `_`
wildcard also excludes. -/
theorem c7_witness :
    (∀ n, n ∈ GetTableNames (LoadSQLFile wUnloaded lenvTables "/tmp/example.sqlite").2 ↔
      (lenvTables.metaOk = true ∧ n ∈ lenvTables.fileDb.map Prod.fst ∧
        likeSqlitePattern n = false ∧ ¬ n = "")) ∧
    List.Sublist (GetTableNames (LoadSQLFile wUnloaded lenvTables "/tmp/example.sqlite").2)
      (lenvTables.fileDb.map Prod.fst) ∧
    (lenvTables.metaOk = false →
      GetTableNames (LoadSQLFile wUnloaded lenvTables "/tmp/example.sqlite").2 = []) :=
  c7_list_tables wUnloaded lenvTables "/tmp/example.sqlite" (by decide) rfl rfl

/-- C8: loading an existing table that has zero rows succeeds and yields
an empty grid that still carries the table's column headers: the column
count equals the catalog's column-list length while the row count is
zero. -/
theorem c8_load_zero_row_table (w : Worker) (t : String) (tab : Table)
    (hfl : w.FileLoaded = true) (hop : w.dbOpen = true) (ht : ¬ t = "")
    (hlook : dbLookup w.db t = some tab) (hcols : tab.cols ≠ [])
    (hrows : tab.rows = []) :
    ∃ g, LoadTableData w t true = some g ∧
      g.columnCount = (GetTableColumns w.db t).length ∧
      g.rowCount = 0 ∧
      g.headers = (GetTableColumns w.db t).map some := by
  have hcols' : GetTableColumns w.db t = tab.cols := by
    simp [GetTableColumns, hlook]
  refine ⟨⟨tab.cols.map some, []⟩, ?_, by simp [Grid.columnCount, hcols'],
    by simp [Grid.rowCount], by simp [hcols']⟩
  simp only [LoadTableData, hcols', hlook, hrows]
  simp [hfl, hop, ht, hcols]

/-- Witness for C8: loading the zero-row table produces a grid with its
two headers and no rows. -/
theorem c8_witness :
    ∃ g, LoadTableData wNoRows "empty" true = some g ∧
      g.columnCount = (GetTableColumns wNoRows.db "empty").length ∧
      g.rowCount = 0 ∧
      g.headers = (GetTableColumns wNoRows.db "empty").map some :=
  c8_load_zero_row_table wNoRows "empty" tabNoRows rfl rfl (by decide) rfl
    (by decide) rfl

/-- Counterexample to C10: a grid with zero rows and one column whose
header names no schema column of the valid loaded table `users` does NOT
commit successfully: the prepare of `INSERT INTO users (bogus) VALUES (?)`
(sqlworker.cpp:313) fails, the transaction is rolled back, and the call
returns false with the table's rows intact — so the claim does not hold
for every zero-row, at-least-one-column grid. -/
theorem c10_counterexample :
    (Grid.mk [some "bogus"] ([] : List (List (Option String)))).rowCount = 0 ∧
    (Grid.mk [some "bogus"] ([] : List (List (Option String)))).columnCount = 1 ∧
    (UpdateCompleteTable wUsers envAll "users"
      (some (Grid.mk [some "bogus"] []))).ok = false ∧
    dbLookup (UpdateCompleteTable wUsers envAll "users"
      (some (Grid.mk [some "bogus"] []))).db "users" = some tabUsers :=
  ⟨rfl, rfl, by decide, by decide⟩

/-- C10 amended: committing a grid with zero rows and at least one column
on a valid loaded table succeeds and leaves the table empty PROVIDED the
grid's resolved column names are valid for the table (at least one, each
an existing schema column) — as they are for a loaded table's grid with
its rows removed.  The delete-all executes, the per-row insert loop
executes zero times, and the transaction commits; with an invalid header
the prepare fails instead and the commit returns false (see the
counterexample). -/
theorem c10_commit_empty_grid (w : Worker) (env : Env) (t : String) (g : Grid)
    (tab : Table) (rc : List String) (rtr : List Stmt)
    (hfl : w.FileLoaded = true) (hop : w.dbOpen = true) (ht : ¬ t = "")
    (hlook : dbLookup w.db t = some tab)
    (htx : env.txOk = true) (hdel : env.delOk = true) (hprep : env.prepOk = true)
    (hcommit : env.commitOk = true)
    (hrows : g.rows = [])
    (hres : resolveColumnsFrom (dbUpdate w.db t { tab with rows := [] }) t 0 g.headers =
      (rc, rtr))
    (hne : rc ≠ [])
    (hsub : (rc.all fun c => tab.cols.contains c) = true) :
    UpdateCompleteTable w env t (some g) =
      ⟨true, dbUpdate w.db t { tab with rows := [] },
        [Stmt.beginTx, Stmt.deleteAll t] ++ rtr ++
          [Stmt.prepareInsert t rc, Stmt.commitTx]⟩ ∧
    dbLookup (UpdateCompleteTable w env t (some g)).db t =
      some { tab with rows := [] } := by
  have hloop : (insertLoop env t tab.cols rc g.columnCount g.rows 0 []).1 = true := by
    rw [hrows]
    rfl
  have heq := uct_success_eq w env t g tab rc rtr hfl hop ht htx hdel hlook hres
    hprep hne hsub hloop hcommit
  constructor
  · rw [heq]
    simp [hrows, insertLoop]
  · rw [heq]
    simp only [hrows, insertLoop]
    exact dbLookup_dbUpdate_self _ hlook

/-- Witness for the amended C10: emptying the `users` table through the
zero-row grid carrying its schema headers. -/
theorem c10_witness :
    UpdateCompleteTable wUsers envAll "users" (some gEmptied) =
      ⟨true, dbUpdate wUsers.db "users" { tabUsers with rows := [] },
        [Stmt.beginTx, Stmt.deleteAll "users"] ++ [] ++
          [Stmt.prepareInsert "users" ["id", "name"], Stmt.commitTx]⟩ ∧
    dbLookup (UpdateCompleteTable wUsers envAll "users" (some gEmptied)).db "users" =
      some { tabUsers with rows := [] } :=
  c10_commit_empty_grid wUsers envAll "users" gEmptied tabUsers ["id", "name"] []
    rfl rfl (by decide) rfl rfl rfl rfl rfl rfl (by decide) (by decide) (by decide)

/-- Counterexample to C2: committing the one-column grid `gNarrow`
(header "a") into the two-column table `t(a, b)` succeeds — the engine
accepts an INSERT naming a strict subset of the columns and fills the
rest with NULL — but the subsequent load returns a two-column grid with
an extra empty cell per row, which is not row-for-row, cell-for-cell
equal to the committed one-column grid. -/
theorem c2_counterexample :
    (UpdateCompleteTable wAB envAll "t" (some gNarrow)).ok = true ∧
    LoadTableData { wAB with db := (UpdateCompleteTable wAB envAll "t" (some gNarrow)).db }
        "t" true = some ⟨[some "a", some "b"], [[some "v", some ""]]⟩ ∧
    gNarrow.columnCount = 1 ∧
    (Grid.mk [some "a", some "b"] [[some "v", some ""]]).columnCount = 2 :=
  ⟨by decide, by decide, by decide, by decide⟩

/-- C2 amended: for every successful commit in which the grid supplies a
header for every column and the headers equal the target table's schema
columns in order (as they do for any grid produced by loading the table),
a subsequent load returns a grid with the same row count, the same column
count, and cell-for-cell equal text. -/
theorem c2_commit_load_roundtrip (w : Worker) (env : Env) (t : String) (g : Grid)
    (tab : Table)
    (hfl : w.FileLoaded = true) (hop : w.dbOpen = true) (ht : ¬ t = "")
    (hlook : dbLookup w.db t = some tab) (hnd : tab.cols.Nodup) (hcne : tab.cols ≠ [])
    (hhead : g.headers = tab.cols.map some)
    (htx : env.txOk = true) (hdel : env.delOk = true) (hprep : env.prepOk = true)
    (hcommit : env.commitOk = true)
    (hrp : ∀ r, env.reprepOk r = true) (hins : ∀ r, env.insOk r = true) :
    (UpdateCompleteTable w env t (some g)).ok = true ∧
    ∃ g', LoadTableData { w with db := (UpdateCompleteTable w env t (some g)).db } t
        true = some g' ∧
      g'.rowCount = g.rowCount ∧ g'.columnCount = g.columnCount ∧
      ∀ r c, r < g.rowCount → c < g.columnCount → g'.cellText r c = g.cellText r c := by
  have hres : resolveColumnsFrom (dbUpdate w.db t { tab with rows := [] }) t 0 g.headers
      = (tab.cols, []) := by
    rw [hhead]
    exact resolveColumnsFrom_map_some _ t tab.cols 0
  have hsub : (tab.cols.all fun c => tab.cols.contains c) = true := by
    rw [List.all_eq_true]
    intro x hx
    simpa using hx
  have hnc : g.columnCount = tab.cols.length := by
    simp [Grid.columnCount, hhead]
  have hloop := insertLoop_success t tab.cols tab.cols g.columnCount hrp hins g.rows 0 []
  have heq := uct_success_eq w env t g tab tab.cols [] hfl hop ht htx hdel hlook hres
    hprep hcne hsub hloop.1 hcommit
  have hRval : (insertLoop env t tab.cols tab.cols g.columnCount g.rows 0 []).2.1 =
      g.rows.map fun row => rowValues g.columnCount row := by
    rw [hloop.2]
    simp only [List.nil_append]
    apply List.map_congr_left
    intro row _
    exact storedRow_self tab.cols _ hnd (by rw [rowValues_length]; exact hnc)
  refine ⟨by rw [heq], ?_⟩
  have hdb : (UpdateCompleteTable w env t (some g)).db =
      dbUpdate w.db t { tab with
        rows := (insertLoop env t tab.cols tab.cols g.columnCount g.rows 0 []).2.1 } := by
    rw [heq]
  rw [hdb, hRval]
  have hlook' : dbLookup
      (dbUpdate w.db t { tab with rows := g.rows.map fun row => rowValues g.columnCount row })
        t = some { tab with rows := g.rows.map fun row => rowValues g.columnCount row } :=
    dbLookup_dbUpdate_self _ hlook
  have hcols' : GetTableColumns
      (dbUpdate w.db t { tab with rows := g.rows.map fun row => rowValues g.columnCount row })
        t = tab.cols := by
    simp [GetTableColumns, hlook']
  refine ⟨⟨tab.cols.map some,
    (g.rows.map fun row => rowValues g.columnCount row).map fun row =>
      (List.range tab.cols.length).map fun c => some (row.getD c "")⟩, ?_, ?_, ?_, ?_⟩
  · simp only [LoadTableData, hcols', hlook']
    simp [hfl, hop, ht, hcne]
  · simp [Grid.rowCount]
  · simp [Grid.columnCount, hhead]
  · intro r c hr hc
    have hr' : r < g.rows.length := hr
    have hrR : r < (g.rows.map fun row => rowValues g.columnCount row).length := by
      simpa using hr'
    have hc' : c < tab.cols.length := by
      rw [← hnc]
      exact hc
    show (((((g.rows.map fun row => rowValues g.columnCount row).map fun row =>
        (List.range tab.cols.length).map fun c => some (row.getD c "")).getD r []).getD c
          none).getD "") = g.cellText r c
    rw [getD_map_lt _ _ r hrR _ []]
    rw [range_map_some_getD tab.cols.length _ c hc']
    simp only [Option.getD_some]
    rw [getD_map_lt _ g.rows r hr' _ []]
    rw [rowValues_getD g.columnCount _ c hc]
    rfl

/-- Witness for the amended C2: the spec's walk-through — edit a cell,
append a row, commit, reload — on `users`. -/
theorem c2_amended_witness :
    (UpdateCompleteTable wUsers envAll "users"
      (some ⟨[some "id", some "name"],
        [[some "1", some "Anna"], [some "2", some "Bo"], [some "3", some "Cy"]]⟩)).ok =
      true ∧
    ∃ g', LoadTableData
        { wUsers with db := (UpdateCompleteTable wUsers envAll "users"
            (some ⟨[some "id", some "name"],
              [[some "1", some "Anna"], [some "2", some "Bo"], [some "3", some "Cy"]]⟩)).db }
        "users" true = some g' ∧
      g'.rowCount = (Grid.mk [some "id", some "name"]
        [[some "1", some "Anna"], [some "2", some "Bo"], [some "3", some "Cy"]]).rowCount ∧
      g'.columnCount = (Grid.mk [some "id", some "name"]
        [[some "1", some "Anna"], [some "2", some "Bo"], [some "3", some "Cy"]]).columnCount ∧
      ∀ r c, r < (Grid.mk [some "id", some "name"]
          [[some "1", some "Anna"], [some "2", some "Bo"], [some "3", some "Cy"]]).rowCount →
        c < (Grid.mk [some "id", some "name"]
          [[some "1", some "Anna"], [some "2", some "Bo"], [some "3", some "Cy"]]).columnCount →
        g'.cellText r c = (Grid.mk [some "id", some "name"]
          [[some "1", some "Anna"], [some "2", some "Bo"], [some "3", some "Cy"]]).cellText r c :=
  c2_commit_load_roundtrip wUsers envAll "users"
    ⟨[some "id", some "name"],
      [[some "1", some "Anna"], [some "2", some "Bo"], [some "3", some "Cy"]]⟩
    tabUsers rfl rfl (by decide) rfl (by decide) (by decide) (by decide) rfl rfl rfl rfl
    (fun _ => rfl) (fun _ => rfl)

/-- C4: committing the unchanged grid obtained by loading a table leaves
that table's stored content unchanged, whatever the engine environment
does — on any failure the rollback restores it, and on success the
reinserted rows equal the loaded ones. -/
theorem c4_load_then_commit_noop (w : Worker) (env : Env) (t : String) (g : Grid)
    (tab : Table)
    (hlook : dbLookup w.db t = some tab) (hnd : tab.cols.Nodup)
    (hwf : ∀ row ∈ tab.rows, row.length = tab.cols.length)
    (hload : LoadTableData w t true = some g) :
    dbLookup (UpdateCompleteTable w env t (some g)).db t = dbLookup w.db t := by
  have hcols : GetTableColumns w.db t = tab.cols := by
    simp [GetTableColumns, hlook]
  simp only [LoadTableData, hcols, hlook] at hload
  split at hload
  · exact absurd hload (by simp)
  · split at hload
    · exact absurd hload (by simp)
    · split at hload
      · exact absurd hload (by simp)
      · have hg : g = ⟨tab.cols.map some,
            tab.rows.map fun row =>
              (List.range tab.cols.length).map fun c => some (row.getD c "")⟩ :=
          (Option.some.inj hload).symm
        have hheads : g.headers = tab.cols.map some := by rw [hg]
        have hrows : g.rows = tab.rows.map fun row =>
            (List.range tab.cols.length).map fun c => some (row.getD c "") := by rw [hg]
        have hnc : g.columnCount = tab.cols.length := by
          simp [Grid.columnCount, hheads]
        cases hok : (UpdateCompleteTable w env t (some g)).ok with
        | false =>
          rw [uct_db_of_ok_false w env t (some g) hok]
        | true =>
          obtain ⟨tab2, hlook2, hloop2, hdb2⟩ := uct_ok_shape w env t g hok
          rw [hlook] at hlook2
          have htab2 : tab2 = tab := (Option.some.inj hlook2).symm
          subst htab2
          have hres : resolveColumnsFrom (dbUpdate w.db t { tab2 with rows := [] }) t 0
              g.headers = (tab2.cols, []) := by
            rw [hheads]
            exact resolveColumnsFrom_map_some _ t tab2.cols 0
          rw [hres] at hloop2 hdb2
          dsimp only at hloop2 hdb2
          have hid : ∀ row ∈ tab2.rows,
              storedRow tab2.cols tab2.cols
                (rowValues g.columnCount
                  ((List.range tab2.cols.length).map fun c => some (row.getD c ""))) =
                row := by
            intro row hmem
            have hlen : row.length = tab2.cols.length := hwf row hmem
            rw [hnc, ← hlen]
            rw [rowValues_render row]
            exact storedRow_self tab2.cols row hnd hlen
          have hrows2 : (insertLoop env t tab2.cols tab2.cols g.columnCount
              g.rows 0 []).2.1 = tab2.rows := by
            rw [insertLoop_true_rows hloop2, hrows]
            simp only [List.nil_append, List.map_map]
            have hmapid : ∀ row ∈ tab2.rows,
                ((fun row => storedRow tab2.cols tab2.cols
                    (rowValues g.columnCount row)) ∘
                  (fun row => (List.range tab2.cols.length).map fun c =>
                    some (row.getD c ""))) row = id row := by
              intro row hmem
              simp only [Function.comp_apply, id_eq]
              exact hid row hmem
            rw [List.map_congr_left hmapid, List.map_id]
          rw [hdb2, hrows2]
          rw [dbLookup_dbUpdate_self { tab2 with rows := tab2.rows } hlook, hlook]

/-- Witness for C4: load-then-commit of `users` leaves its content intact. -/
theorem c4_witness :
    dbLookup (UpdateCompleteTable wUsers envAll "users" (some gUsers)).db "users" =
      dbLookup wUsers.db "users" :=
  c4_load_then_commit_noop wUsers envAll "users" gUsers tabUsers rfl (by decide)
    (by decide) (by decide)

/-- C5: during a commit that reaches the column-resolution step, (a) the
column name written for position `n` is the grid's own header label if
present, otherwise the catalog's column at the same position, otherwise
the synthesized `Column_<n+1>`; (b) every prepare and every per-row exec
in the engine trace uses that one resolved list; (c) the whole trace
contains exactly one catalog (PRAGMA) query per headerless column — not
one per row; and (d) all those catalog queries happen before the single
prepared insert, hence before the row-insert loop. -/
theorem c5_column_resolution (w : Worker) (env : Env) (t : String) (g : Grid)
    (tab : Table)
    (hfl : w.FileLoaded = true) (hop : w.dbOpen = true) (ht : ¬ t = "")
    (htx : env.txOk = true) (hdel : env.delOk = true)
    (hlook : dbLookup w.db t = some tab) :
    (∀ n, n < g.columnCount →
      (resolveColumnsFrom w.db t 0 g.headers).1[n]? =
        some (resolveSpec tab.cols n (g.headers.getD n none))) ∧
    (∀ c, Stmt.prepareInsert t c ∈ (UpdateCompleteTable w env t (some g)).trace →
      c = (resolveColumnsFrom w.db t 0 g.headers).1) ∧
    (∀ c v, Stmt.execInsert t c v ∈ (UpdateCompleteTable w env t (some g)).trace →
      c = (resolveColumnsFrom w.db t 0 g.headers).1) ∧
    ((UpdateCompleteTable w env t (some g)).trace.countP Stmt.isPragma =
      g.headers.countP Option.isNone) ∧
    (∃ tail, (UpdateCompleteTable w env t (some g)).trace =
        [Stmt.beginTx, Stmt.deleteAll t] ++ (resolveColumnsFrom w.db t 0 g.headers).2 ++
          [Stmt.prepareInsert t (resolveColumnsFrom w.db t 0 g.headers).1] ++ tail ∧
      tail.countP Stmt.isPragma = 0) := by
  have hcols : GetTableColumns w.db t = tab.cols := by
    simp [GetTableColumns, hlook]
  have hcols1 : GetTableColumns (dbUpdate w.db t { tab with rows := [] }) t = tab.cols :=
    GetTableColumns_dbUpdate _ hlook
  have hcongr : resolveColumnsFrom (dbUpdate w.db t { tab with rows := [] }) t 0 g.headers =
      resolveColumnsFrom w.db t 0 g.headers :=
    resolveColumnsFrom_congr (by rw [hcols1, hcols]) g.headers 0
  have hres : resolveColumnsFrom (dbUpdate w.db t { tab with rows := [] }) t 0 g.headers =
      ((resolveColumnsFrom w.db t 0 g.headers).1,
        (resolveColumnsFrom w.db t 0 g.headers).2) := by
    rw [hcongr]
  obtain ⟨tail, htr, htail⟩ := uct_trace_shape w env t g tab _ _ hfl hop ht htx hdel hlook hres
  have htail0 : tail.countP Stmt.isPragma = 0 := by
    rw [List.countP_eq_zero]
    intro s hs
    rcases htail s hs with hh | hh | hh | hh
    · rw [hh]; simp [Stmt.isPragma]
    · obtain ⟨v, hv⟩ := hh
      rw [hv]; simp [Stmt.isPragma]
    · rw [hh]; simp [Stmt.isPragma]
    · rw [hh]; simp [Stmt.isPragma]
  refine ⟨?_, ?_, ?_, ?_, tail, htr, htail0⟩
  · intro n hn
    have hstep := resolveColumnsFrom_fst_getElem w.db t g.headers 0 n hn
    rw [hcols] at hstep
    simpa using hstep
  · intro c hmem
    rw [htr] at hmem
    simp only [List.append_assoc, List.mem_append, List.mem_cons,
      List.mem_singleton] at hmem
    rcases hmem with (hh | hh | hh) | hh | hh | hh
    · exact absurd hh (by simp)
    · exact absurd hh (by simp)
    · simp at hh
    · have := resolveColumnsFrom_snd_mem w.db t g.headers 0 _ hh
      exact absurd this (by simp)
    · simpa using hh
    · rcases htail _ hh with h1 | h1 | h1 | h1
      · simpa using h1
      · obtain ⟨v, hv⟩ := h1
        exact absurd hv (by simp)
      · exact absurd h1 (by simp)
      · exact absurd h1 (by simp)
  · intro c v hmem
    rw [htr] at hmem
    simp only [List.append_assoc, List.mem_append, List.mem_cons,
      List.mem_singleton] at hmem
    rcases hmem with (hh | hh | hh) | hh | hh | hh
    · exact absurd hh (by simp)
    · exact absurd hh (by simp)
    · simp at hh
    · have := resolveColumnsFrom_snd_mem w.db t g.headers 0 _ hh
      exact absurd this (by simp)
    · exact absurd hh (by simp)
    · rcases htail _ hh with h1 | h1 | h1 | h1
      · exact absurd h1 (by simp)
      · obtain ⟨v2, hv2⟩ := h1
        simp only [Stmt.execInsert.injEq] at hv2
        exact hv2.2.1
      · exact absurd h1 (by simp)
      · exact absurd h1 (by simp)
  · rw [htr]
    simp only [List.countP_append]
    have h1 : ([Stmt.beginTx, Stmt.deleteAll t] : List Stmt).countP Stmt.isPragma = 0 := by
      simp [List.countP_cons, Stmt.isPragma]
    have h2 : (resolveColumnsFrom w.db t 0 g.headers).2.countP Stmt.isPragma =
        (resolveColumnsFrom w.db t 0 g.headers).2.length := by
      rw [List.countP_eq_length]
      intro s hs
      rw [resolveColumnsFrom_snd_mem w.db t g.headers 0 s hs]
      rfl
    have h3 : ([Stmt.prepareInsert t
        (resolveColumnsFrom w.db t 0 g.headers).1] : List Stmt).countP Stmt.isPragma = 0 := by
      simp [List.countP_cons, Stmt.isPragma]
    rw [h1, h2, h3, htail0, resolveColumnsFrom_snd_length]
    omega

/-- Witness for C5 on the mixed-header grid: position 0 comes from the
grid header, position 1 falls back to the catalog column `name`, and
position 2 is synthesized as `Column_3`. -/
theorem c5_witness :
    (∀ n, n < gMixed.columnCount →
      (resolveColumnsFrom wUsers.db "users" 0 gMixed.headers).1[n]? =
        some (resolveSpec tabUsers.cols n (gMixed.headers.getD n none))) ∧
    (∀ c, Stmt.prepareInsert "users" c ∈
        (UpdateCompleteTable wUsers envAll "users" (some gMixed)).trace →
      c = (resolveColumnsFrom wUsers.db "users" 0 gMixed.headers).1) ∧
    (∀ c v, Stmt.execInsert "users" c v ∈
        (UpdateCompleteTable wUsers envAll "users" (some gMixed)).trace →
      c = (resolveColumnsFrom wUsers.db "users" 0 gMixed.headers).1) ∧
    ((UpdateCompleteTable wUsers envAll "users" (some gMixed)).trace.countP Stmt.isPragma =
      gMixed.headers.countP Option.isNone) ∧
    (∃ tail, (UpdateCompleteTable wUsers envAll "users" (some gMixed)).trace =
        [Stmt.beginTx, Stmt.deleteAll "users"] ++
          (resolveColumnsFrom wUsers.db "users" 0 gMixed.headers).2 ++
          [Stmt.prepareInsert "users"
            (resolveColumnsFrom wUsers.db "users" 0 gMixed.headers).1] ++ tail ∧
      tail.countP Stmt.isPragma = 0) :=
  c5_column_resolution wUsers envAll "users" gMixed tabUsers rfl rfl (by decide)
    rfl rfl rfl

end SQLTableEditing
